import Mathlib

/-!
Verification of the sticky-notes persistence layer.

The development shallowly embeds the storage subsystem of the repository:

* `src/main/storage/index.js` — the primary file-backed store
  (`readNotesData`, `writeNotesData`, `createBackup`, `cleanupOldBackups`);
* `src/renderer/services/storage.js` — the storage coordinator
  (`loadData`, `saveData`, `loadFromLocalStorage`, `debouncedSave`,
  `setPendingData`);
* `src/renderer/services/notes.js` — the note collection manager
  (`initialize` with its legacy-timestamp migration, `createNewNote`,
  `updateNote`, `deleteNote`, `searchNotes`).

Modelling conventions:

* JS strings are lists of characters (`Str`); `toLowerCase`, `trim`,
  `includes`, `startsWith`, `endsWith` are given their JS meaning
  character-wise.
* ISO-8601 timestamps are `Nat` (ISO strings compare lexicographically
  consistently with time); a missing/null field is `Option.none`.
* JSON serialization is abstracted: a stored blob is a `Content`, either a
  well-formed document (`Content.doc`) or unparsable bytes
  (`Content.garbage`); `JSON.parse` is `parseContent`, `JSON.stringify` is
  `serialize`.  `deserialize ∘ serialize = id` holds definitionally in this
  abstraction.
* Asynchronous timers (`setTimeout`/`clearTimeout`) are modelled by an
  explicit `(fire time, payload)` slot processed by a deterministic
  event-sequential semantics, matching the single-threaded event loop.
* Filesystem faults that the code catches are modelled by explicit fault
  oracles where a claim depends on them.
-/

/-- JS strings, modelled as lists of characters. -/
abbrev Str := List Char

/-- JS `String.prototype.toLowerCase`, character by character. -/
def jsToLower (s : Str) : Str := s.map Char.toLower

/-- JS `String.prototype.trim`: strip whitespace from both ends. -/
def jsTrim (s : Str) : Str :=
  ((s.dropWhile Char.isWhitespace).reverse.dropWhile Char.isWhitespace).reverse

/-- JS `haystack.includes(needle)`: substring test. -/
def includesSub : Str → Str → Bool
  | [], needle => needle.isEmpty
  | hay@(_ :: t), needle => needle.isPrefixOf hay || includesSub t needle

/-- A sticky note as stored in the JSON document.  `title`/`content` may be
absent or null (`none`); timestamps may be missing on legacy records. -/
structure Note where
  id : Nat
  title : Option Str
  content : Option Str
  createdAt : Option Nat
  updatedAt : Option Nat
deriving DecidableEq

/-- The unit of persistence: the whole note collection document. -/
structure NoteDoc where
  notes : List Note
  nextId : Nat
  lastModified : Option Nat
deriving DecidableEq

/-- A stored blob: either a well-formed serialized document or bytes that do
not parse. -/
inductive Content where
  | doc (d : NoteDoc)
  | garbage
deriving DecidableEq

/-- `JSON.parse` at the document type: garbage throws, modelled as `none`. -/
def parseContent : Content → Option NoteDoc
  | .doc d => some d
  | .garbage => none

/-- `JSON.stringify(data, null, 2)`, abstracted. -/
def serialize (d : NoteDoc) : Content := .doc d

/-- The empty document `{ notes: [], nextId: 1 }` returned by the fallback
chain of `readNotesData` (no `lastModified` field). -/
def emptyDoc : NoteDoc := { notes := [], nextId := 1, lastModified := none }

/-- The two fixed file slots of the primary store: `notes.json` and the
rotating backup `notes.backup.json`.  `none` means the file is absent. -/
structure FS where
  dataFile : Option Content
  backupFile : Option Content
deriving DecidableEq

/-- `readNotesData` (src/main/storage/index.js:15-33): read and parse the
data file; on any failure try the rotating backup; on failure again return
the empty document.  Total — no failure escapes. -/
def readNotesData (fs : FS) : NoteDoc :=
  match fs.dataFile.bind parseContent with
  | some d => d
  | none =>
    match fs.backupFile.bind parseContent with
    | some d => d
    | none => emptyDoc

/-- Result value of `writeNotesData`. -/
structure WriteResult where
  success : Bool
deriving DecidableEq

/-- `writeNotesData` (src/main/storage/index.js:36-57): if the data file
exists, first copy it to the rotating-backup slot, then overwrite the data
file with the new serialization. -/
def writeNotesData (data : NoteDoc) (fs : FS) : FS × WriteResult :=
  let fs1 := match fs.dataFile with
    | some c => { fs with backupFile := some c }
    | none => fs
  ({ fs1 with dataFile := some (serialize data) }, { success := true })

/-- The legacy-record migration step run by `NotesService.initialize` on each
loaded note (src/renderer/services/notes.js:22-30): a missing `createdAt`
becomes `now`; afterwards a missing `updatedAt` becomes the (possibly just
assigned) `createdAt`.  A present field is never touched. -/
def migrateNote (now : Nat) (n : Note) : Note :=
  let n1 := match n.createdAt with
    | none => { n with createdAt := some now }
    | some _ => n
  match n1.updatedAt with
  | none => { n1 with updatedAt := n1.createdAt }
  | some _ => n1

/-- The `forEach` migration over the loaded collection. -/
def migrateNotes (now : Nat) (ns : List Note) : List Note :=
  ns.map (migrateNote now)

/-- The stored timestamps of a note are consistent with migration at time
`now`: with both fields present `createdAt ≤ updatedAt` must already hold,
and a note carrying `updatedAt` but no `createdAt` must have
`updatedAt ≥ now` (migration will stamp `createdAt := now`). -/
def migrationSafe (now : Nat) (n : Note) : Bool :=
  match n.createdAt, n.updatedAt with
  | some c, some u => c ≤ u
  | none, some u => now ≤ u
  | _, none => true

/-- A concrete legacy note: it has an `updatedAt` but no `createdAt`. -/
def legacyNote : Note :=
  { id := 1, title := none, content := none, createdAt := none,
    updatedAt := some 5 }

/-- `NotesService.searchNotes` (src/renderer/services/notes.js:201-212): an
empty or blank term returns the collection itself; otherwise the term is
lower-cased and trimmed and the notes are filtered by a case-insensitive
substring match on `title` and `content`, a null/absent field counting as
the empty string. -/
def searchNotes (searchTerm : Str) (notes : List Note) : List Note :=
  if searchTerm = [] ∨ jsTrim searchTerm = [] then notes
  else
    let term := jsTrim (jsToLower searchTerm)
    notes.filter fun note =>
      includesSub (jsToLower (note.title.getD [])) term
        || includesSub (jsToLower (note.content.getD [])) term

/-- The environment visible to the renderer's `StorageService`: the primary
file store and the `stickyNotes` localStorage slot. -/
structure World where
  fs : FS
  localStore : Option Content
deriving DecidableEq

/-- `StorageService.loadFromLocalStorage`
(src/renderer/services/storage.js:45-62): return the parsed stored blob; on
absence or parse failure fall through to the default empty document (whose
`lastModified` is the current time). -/
def loadFromLocalStorage (now : Nat) (ls : Option Content) : NoteDoc :=
  match ls with
  | some c =>
    match parseContent c with
    | some d => d
    | none => { notes := [], nextId := 1, lastModified := some now }
  | none => { notes := [], nextId := 1, lastModified := some now }

/-- `StorageService.loadData` (src/renderer/services/storage.js:17-39): with
the Electron file backend available read through the primary backend (whose
parsed result always carries a `notes` field in this model); without it use
localStorage. -/
def loadData (isElectron : Bool) (now : Nat) (w : World) : NoteDoc :=
  if isElectron then readNotesData w.fs
  else loadFromLocalStorage now w.localStore

/-- `StorageService.saveData` (src/renderer/services/storage.js:68-86): with
Electron available write through the primary backend, then mirror the same
document to localStorage; otherwise localStorage only. -/
def saveDataW (isElectron : Bool) (d : NoteDoc) (w : World) : World :=
  if isElectron then
    { fs := (writeNotesData d w.fs).1, localStore := some (serialize d) }
  else { w with localStore := some (serialize d) }

/-- The observable outcome of `NotesService.initialize`: the in-memory
collection, the id counter, the storage environment afterwards, and whether
the "imported from local backup" notification was raised. -/
structure InitResult where
  notes : List Note
  nextNoteId : Nat
  world : World
  importedFromLocal : Bool
deriving DecidableEq

/-- `NotesService.initialize` (src/renderer/services/notes.js:15-64): load
through the coordinator, apply the legacy migration; if the collection is
then empty, try localStorage, and a non-empty localStorage document is
adopted, migrated, persisted back via `saveAllNotes` (which writes through
the primary backend and mirrors to localStorage), and the "imported from
local backup" notification is raised. -/
def initializeNotes (isElectron : Bool) (now : Nat) (w : World) : InitResult :=
  let data := loadData isElectron now w
  let notes1 := migrateNotes now data.notes
  let nextId1 := if data.nextId = 0 then 1 else data.nextId
  if notes1.length = 0 then
    let localData := loadFromLocalStorage now w.localStore
    if 0 < localData.notes.length then
      let notes2 := migrateNotes now localData.notes
      let doc : NoteDoc :=
        { notes := notes2, nextId := localData.nextId,
          lastModified := some now }
      { notes := notes2, nextNoteId := localData.nextId,
        world := saveDataW isElectron doc w, importedFromLocal := true }
    else
      { notes := notes1, nextNoteId := nextId1, world := w,
        importedFromLocal := false }
  else
    { notes := notes1, nextNoteId := nextId1, world := w,
      importedFromLocal := false }

/-- The renderer `StorageService`'s timer and pending state, together with
the log of documents that reached `saveData` (i.e. the backend writes). -/
structure StoreState where
  saveTimeout : Option (Nat × NoteDoc)
  pendingData : Option NoteDoc
  writes : List NoteDoc
deriving DecidableEq

/-- `StorageService.saveData` as seen from the write log: the document
reaches the backend (and the localStorage mirror). -/
def saveData (d : NoteDoc) (s : StoreState) : StoreState :=
  { s with writes := s.writes ++ [d] }

/-- `StorageService.debouncedSave` (src/renderer/services/storage.js:147-155)
called at time `now`: `clearTimeout` any pending timer, then arm a new one
that runs `saveData data` at `now + 1000`. -/
def debouncedSave (now : Nat) (data : NoteDoc) (s : StoreState) : StoreState :=
  { s with saveTimeout := some (now + 1000, data) }

/-- `StorageService.setPendingData`. -/
def setPendingData (d : NoteDoc) (s : StoreState) : StoreState :=
  { s with pendingData := some d }

/-- The event loop runs a due timer callback before a later event: fire the
debounce timer if its deadline has passed at time `t`. -/
def fireDue (t : Nat) (s : StoreState) : StoreState :=
  match s.saveTimeout with
  | some (ft, d) =>
    if ft ≤ t then saveData d { s with saveTimeout := none } else s
  | none => s

/-- Let time run out: fire a pending debounce timer unconditionally. -/
def flushTimer (s : StoreState) : StoreState :=
  match s.saveTimeout with
  | some (_, d) => saveData d { s with saveTimeout := none }
  | none => s

/-- The `NotesService` state: the in-memory collection, the id counter and
the storage service state. -/
structure AppState where
  notes : List Note
  nextNoteId : Nat
  store : StoreState
deriving DecidableEq

/-- The partial fields passed to `updateNote`; a present field overwrites. -/
structure NoteUpd where
  title : Option Str
  content : Option Str
deriving DecidableEq

/-- `Object.assign(note, updates)` followed by
`note.updatedAt = new Date().toISOString()`. -/
def applyUpd (u : NoteUpd) (now : Nat) (n : Note) : Note :=
  { n with
    title := match u.title with | some t => some t | none => n.title,
    content := match u.content with | some c => some c | none => n.content,
    updatedAt := some now }

/-- Mutate the first note carrying the id (the one `find` returns). -/
def updateFirst (noteId : Nat) (u : NoteUpd) (now : Nat) :
    List Note → List Note
  | [] => []
  | n :: rest =>
    if n.id = noteId then applyUpd u now n :: rest
    else n :: updateFirst noteId u now rest

/-- `NotesService.updateNote` (src/renderer/services/notes.js:109-134) at
time `now`: find the note (false if absent), merge the fields and stamp
`updatedAt`, build the document, `setPendingData` it, `debouncedSave` it. -/
def updateNote (noteId : Nat) (u : NoteUpd) (now : Nat) (st : AppState) :
    Bool × AppState :=
  if st.notes.any fun n => n.id = noteId then
    let notes1 := updateFirst noteId u now st.notes
    let data : NoteDoc :=
      { notes := notes1, nextId := st.nextNoteId, lastModified := some now }
    (true,
      { st with
        notes := notes1
        store := debouncedSave now data (setPendingData data st.store) })
  else (false, st)

/-- `NotesService.saveAllNotes` (src/renderer/services/notes.js:181-194):
build the current document and save it immediately. -/
def saveAllNotes (now : Nat) (st : AppState) : AppState :=
  let data : NoteDoc :=
    { notes := st.notes, nextId := st.nextNoteId, lastModified := some now }
  { st with store := saveData data st.store }

/-- `NotesService.createNewNote` (src/renderer/services/notes.js:87-102):
assign `id := nextNoteId++`, the generated label as title, empty content,
both timestamps `now`; append and save immediately. -/
def createNewNote (now : Nat) (st : AppState) : Note × AppState :=
  let newNote : Note :=
    { id := st.nextNoteId,
      title := some ("便签 ".toList ++ Nat.toDigits 10 (st.notes.length + 1)),
      content := some [],
      createdAt := some now, updatedAt := some now }
  (newNote,
    saveAllNotes now
      { st with
        notes := st.notes ++ [newNote]
        nextNoteId := st.nextNoteId + 1 })

/-- `NotesService.deleteNote` (src/renderer/services/notes.js:165-176):
splice out the first note with the id and save immediately; false when the
id is absent. -/
def deleteNote (noteId : Nat) (now : Nat) (st : AppState) : Bool × AppState :=
  if st.notes.any fun n => n.id = noteId then
    (true, saveAllNotes now
      { st with notes := st.notes.eraseP fun n => n.id = noteId })
  else (false, st)

/-- One `create`/`delete` call with its wall-clock time. -/
inductive NOp where
  | create (now : Nat)
  | del (id : Nat) (now : Nat)
deriving DecidableEq

/-- Run a sequence of create/delete calls, collecting the assigned ids. -/
def runNOps (st : AppState) : List NOp → AppState × List Nat
  | [] => (st, [])
  | NOp.create now :: rest =>
    let p := createNewNote now st
    let q := runNOps p.2 rest
    (q.1, p.1.id :: q.2)
  | NOp.del i now :: rest => runNOps (deleteNote i now st).2 rest

/-- The document invariant: `nextId` strictly exceeds every present id. -/
abbrev validIds (st : AppState) : Prop := ∀ n ∈ st.notes, n.id < st.nextNoteId

/-- One debounce-window step at time `c.1`: run any due timer callback,
then the `updateNote` call itself. -/
def stepCall (noteId : Nat) (st : AppState) (c : Nat × NoteUpd) : AppState :=
  let st1 := { st with store := fireDue c.1 st.store }
  (updateNote noteId c.2 c.1 st1).2

/-- A burst of timed `updateNote` calls, processed in order. -/
def runBurst (noteId : Nat) (st : AppState) :
    List (Nat × NoteUpd) → AppState
  | [] => st
  | c :: rest => runBurst noteId (stepCall noteId st c) rest

/-- The collection after all of the burst's merges, applied in order. -/
def burstNotes (noteId : Nat) (notes : List Note)
    (calls : List (Nat × NoteUpd)) : List Note :=
  calls.foldl (fun ns c => updateFirst noteId c.2 c.1 ns) notes

/-- A directory entry: file name and modification time. -/
structure DirFile where
  name : Str
  mtime : Nat
deriving DecidableEq

/-- A directory listing; names are unique in a real directory, and the
operations below delete and overwrite by name. -/
abbrev Dir := List DirFile

/-- `notes.json` (src/main/storage/config.js). -/
def notesJsonName : Str := "notes.json".toList

/-- The rotating backup `notes.backup.json` (src/main/storage/config.js). -/
def rotatingBackupName : Str := "notes.backup.json".toList

/-- The snapshot filter of `cleanupOldBackups`
(src/main/storage/index.js:84):
`file.startsWith('notes.backup.') && file.endsWith('.json')`.
The rotating backup `notes.backup.json` matches this pattern too. -/
def isBackupFileName (n : Str) : Bool :=
  ("notes.backup.".toList).isPrefixOf n && (".json".toList).isSuffixOf n

/-- `new Date().toISOString().replace(/[:.]/g, '-')`. -/
def sanitizeTs (s : Str) : Str :=
  s.map fun c => if c = ':' ∨ c = '.' then '-' else c

/-- The timestamped snapshot name `notes.backup.<timestamp>.json`. -/
def snapshotName (iso : Str) : Str :=
  "notes.backup.".toList ++ sanitizeTs iso ++ ".json".toList

/-- Which individual filesystem calls fail; `cleanupOldBackups` catches and
absorbs every such failure. -/
structure FsFaults where
  statOk : Str → Bool
  unlinkOk : Str → Bool

/-- The fault-free oracle. -/
def noFaults : FsFaults :=
  { statOk := fun _ => true, unlinkOk := fun _ => true }

/-- Remove the file with the given name (`fs.unlink`). -/
def removeName (n : Str) (d : Dir) : Dir := d.filter fun f => f.name ≠ n

/-- The deletion loop of `cleanupOldBackups`: delete the named files in
order; a failing `unlink` throws, aborting the loop (the error is caught by
the surrounding handler; deletions already made stay made). -/
def deleteFiles (flt : FsFaults) : Dir → List Str → Dir
  | d, [] => d
  | d, n :: rest =>
    if flt.unlinkOk n then deleteFiles flt (removeName n d) rest else d

/-- The sort order of `cleanupOldBackups`: comparator
`(a, b) => b.time - a.time`, i.e. most recently modified first. -/
def mtimeDesc (a b : DirFile) : Prop := b.mtime ≤ a.mtime

instance : DecidableRel mtimeDesc := fun a b => Nat.decLe b.mtime a.mtime

instance : IsTotal DirFile mtimeDesc :=
  ⟨fun a b => Nat.le_total b.mtime a.mtime⟩

instance : IsTrans DirFile mtimeDesc :=
  ⟨fun _ _ _ hab hbc => Nat.le_trans hbc hab⟩

/-- `cleanupOldBackups` (src/main/storage/index.js:80-110): collect the
files matching the backup-name pattern; when they outnumber `maxBackups`,
stat them all (one stat failure rejects the `Promise.all`, aborting the
cleanup), sort by modification time descending and delete everything
beyond the first `maxBackups`.  Every failure is caught and absorbed. -/
def cleanupOldBackups (maxBackups : Nat) (flt : FsFaults) (d : Dir) : Dir :=
  let backupFiles := d.filter fun f => isBackupFileName f.name
  if maxBackups < backupFiles.length then
    if backupFiles.all fun f => flt.statOk f.name then
      let sortedFiles := List.insertionSort mtimeDesc backupFiles
      let filesToDelete := sortedFiles.drop maxBackups
      deleteFiles flt d (filesToDelete.map fun f => f.name)
    else d
  else d

/-- Result value of `createBackup`. -/
structure BackupResult where
  success : Bool
  backupPath : Option Str
deriving DecidableEq

/-- `createBackup` (src/main/storage/index.js:60-77) at ISO time `iso`,
the new snapshot getting modification time `mt`: copy `notes.json` to the
timestamped snapshot name (the copy throws when `notes.json` is absent,
caught into a failure result), then prune old snapshots; the returned
result is built before pruning and ignores its outcome. -/
def createBackup (iso : Str) (mt : Nat) (maxBackups : Nat) (flt : FsFaults)
    (d : Dir) : Dir × BackupResult :=
  if d.any fun f => f.name = notesJsonName then
    let backupPath := snapshotName iso
    let d1 := removeName backupPath d ++ [{ name := backupPath, mtime := mt }]
    let d2 := cleanupOldBackups maxBackups flt d1
    (d2, { success := true, backupPath := some backupPath })
  else
    (d, { success := false, backupPath := none })

/-- A sequence of fault-free `createBackup` calls with the configured
retention limit `maxBackups = 5` (src/main/storage/config.js). -/
def runSnapshots (args : List (Str × Nat)) (d : Dir) : Dir :=
  args.foldl (fun acc a => (createBackup a.1 a.2 5 noFaults acc).1) d

/-- How many timestamped snapshot files a directory holds: files matching
the backup pattern other than the rotating backup itself. -/
def timestampedCount (d : Dir) : Nat :=
  (d.filter fun f =>
    isBackupFileName f.name && f.name ≠ rotatingBackupName).length

/-- The C1 counterexample's initial directory: the data file plus a
rotating backup whose modification time is more recent than the seven
snapshots about to be taken. -/
def c1Start : Dir :=
  [{ name := notesJsonName, mtime := 0 },
   { name := rotatingBackupName, mtime := 100 }]

/-- The C1 counterexample's seven snapshot calls. -/
def c1Args : List (Str × Nat) :=
  [("t1".toList, 1), ("t2".toList, 2), ("t3".toList, 3), ("t4".toList, 4),
   ("t5".toList, 5), ("t6".toList, 6), ("t7".toList, 7)]

/-- The document `updateNote` builds at time `t` from a collection and the
id counter. -/
def docOf (notes : List Note) (nextId t : Nat) : NoteDoc :=
  { notes := notes, nextId := nextId, lastModified := some t }

/-- C4: for successive successful primary writes of `d1` then `d2`, the
rotating backup ends up holding `d1`'s serialization and the data file
`d2`'s; the backup copy is taken from the pre-write data file, i.e. strictly
before the new write. -/
theorem C4_backup_lags_one_generation (fs : FS) (d1 d2 : NoteDoc) :
    ((writeNotesData d2 (writeNotesData d1 fs).1).1.backupFile
        = some (serialize d1))
    ∧ ((writeNotesData d2 (writeNotesData d1 fs).1).1.dataFile
        = some (serialize d2)) := by
  cases h : fs.dataFile <;> simp [writeNotesData, serialize]

/-- C5: when both the data file and the rotating backup are absent or
unparsable, `readNotesData` returns the empty document
`{ notes: [], nextId: 1 }`; the definition is total, so no exception passes
this boundary. -/
theorem C5_fallback_chain_empty (fs : FS)
    (h1 : fs.dataFile.bind parseContent = none)
    (h2 : fs.backupFile.bind parseContent = none) :
    readNotesData fs = emptyDoc := by
  simp [readNotesData, h1, h2]

/-- C5 witness: a concrete state with a corrupt data file and a missing
backup degrades to the empty document. -/
theorem C5_fallback_chain_empty_witness :
    readNotesData { dataFile := some Content.garbage, backupFile := none }
      = emptyDoc :=
  C5_fallback_chain_empty _ (by decide) (by decide)

/-- Helper: `Char.ofNat` at a valid code point evaluates to that code point. -/
theorem toNat_ofNat_valid (n : Nat) (h : n.isValidChar) :
    (Char.ofNat n).toNat = n := by
  simp [Char.ofNat, h, Char.ofNatAux, Char.toNat, UInt32.toNat, UInt32.ofNatCore]

/-- Lower-casing never changes whether a character is whitespace. -/
theorem isWhitespace_toLower (c : Char) :
    (Char.toLower c).isWhitespace = c.isWhitespace := by
  simp only [Char.toLower]
  split
  · rename_i h
    have hval : (c.toNat + 32).isValidChar := Or.inl (by omega)
    have h1 : (Char.ofNat (c.toNat + 32)).toNat = c.toNat + 32 :=
      toNat_ofNat_valid _ hval
    have hlhs : (Char.ofNat (c.toNat + 32)).isWhitespace = false := by
      simp only [Char.isWhitespace, Bool.or_eq_false_iff]
      refine ⟨⟨⟨?_, ?_⟩, ?_⟩, ?_⟩
      · exact decide_eq_false fun he => by
          have h2 := congrArg Char.toNat he
          rw [h1, show (' ').toNat = 32 from rfl] at h2
          omega
      · exact decide_eq_false fun he => by
          have h2 := congrArg Char.toNat he
          rw [h1, show ('\t').toNat = 9 from rfl] at h2
          omega
      · exact decide_eq_false fun he => by
          have h2 := congrArg Char.toNat he
          rw [h1, show ('\x0d').toNat = 13 from rfl] at h2
          omega
      · exact decide_eq_false fun he => by
          have h2 := congrArg Char.toNat he
          rw [h1, show ('\n').toNat = 10 from rfl] at h2
          omega
    have hrhs : c.isWhitespace = false := by
      simp only [Char.isWhitespace, Bool.or_eq_false_iff]
      refine ⟨⟨⟨?_, ?_⟩, ?_⟩, ?_⟩
      · exact decide_eq_false fun he => by
          have h2 := congrArg Char.toNat he
          rw [show (' ').toNat = 32 from rfl] at h2
          omega
      · exact decide_eq_false fun he => by
          have h2 := congrArg Char.toNat he
          rw [show ('\t').toNat = 9 from rfl] at h2
          omega
      · exact decide_eq_false fun he => by
          have h2 := congrArg Char.toNat he
          rw [show ('\x0d').toNat = 13 from rfl] at h2
          omega
      · exact decide_eq_false fun he => by
          have h2 := congrArg Char.toNat he
          rw [show ('\n').toNat = 10 from rfl] at h2
          omega
    rw [hlhs, hrhs]
  · rfl

/-- Trimming commutes with lower-casing. -/
theorem jsTrim_jsToLower (s : Str) :
    jsTrim (jsToLower s) = jsToLower (jsTrim s) := by
  have hws : (Char.isWhitespace ∘ Char.toLower) = Char.isWhitespace :=
    funext fun c => isWhitespace_toLower c
  simp only [jsTrim, jsToLower]
  rw [List.dropWhile_map, hws, ← List.map_reverse, List.dropWhile_map, hws,
    ← List.map_reverse]

/-- The lower-cased trimmed term is empty exactly when the trimmed term is. -/
theorem jsTrim_jsToLower_eq_nil (s : Str) :
    jsTrim (jsToLower s) = [] ↔ jsTrim s = [] := by
  rw [jsTrim_jsToLower, jsToLower]
  simp

/-- `includes` agrees with the infix (contiguous-substring) relation. -/
theorem includesSub_correct (hay needle : Str) :
    includesSub hay needle = true ↔ needle <:+: hay := by
  induction hay with
  | nil =>
    simp [includesSub, List.infix_nil, List.isEmpty_iff]
  | cons c t ih =>
    simp [includesSub, ih, List.infix_cons_iff, List.isPrefixOf_iff_prefix]

/-- C2 counterexample: a loaded note carrying `updatedAt = 5` but no
`createdAt`, migrated at `now = 10`, ends with `createdAt = 10 > 5 =
updatedAt` — the invariant `updatedAt ≥ createdAt` fails after migration,
refuting the claim for this loaded document. -/
theorem C2_counterexample :
    (migrateNote 10 legacyNote).createdAt = some 10
    ∧ (migrateNote 10 legacyNote).updatedAt = some 5
    ∧ ¬ ((migrateNote 10 legacyNote).createdAt.getD 0
          ≤ (migrateNote 10 legacyNote).updatedAt.getD 0) := by
  decide

/-- C2 (amended): after migration both timestamps are always present, and
`updatedAt ≥ createdAt` holds for every note whose stored fields are
migration-consistent — in particular for every note missing `updatedAt`
(it receives `createdAt` itself) and every note missing both fields (both
become `now`); a note with `updatedAt` but no `createdAt` keeps its old
`updatedAt` while `createdAt` becomes `now`, so for it the invariant is
guaranteed only when `updatedAt ≥ now`. -/
theorem C2_migration_invariant (now : Nat) (n : Note)
    (h : migrationSafe now n = true) :
    (migrateNote now n).createdAt.isSome = true
    ∧ (migrateNote now n).updatedAt.isSome = true
    ∧ (migrateNote now n).createdAt.getD 0
        ≤ (migrateNote now n).updatedAt.getD 0 := by
  cases hc : n.createdAt <;> cases hu : n.updatedAt <;>
    simp_all [migrateNote, migrationSafe]

/-- C2 witness: a note missing both timestamps is migrated at time `3` and
satisfies the invariant. -/
theorem C2_migration_invariant_witness :
    (migrateNote 3
        { id := 1, title := none, content := none, createdAt := none,
          updatedAt := none }).createdAt.isSome = true
    ∧ (migrateNote 3
        { id := 1, title := none, content := none, createdAt := none,
          updatedAt := none }).updatedAt.isSome = true
    ∧ (migrateNote 3
        { id := 1, title := none, content := none, createdAt := none,
          updatedAt := none }).createdAt.getD 0
        ≤ (migrateNote 3
            { id := 1, title := none, content := none, createdAt := none,
              updatedAt := none }).updatedAt.getD 0 :=
  C2_migration_invariant 3 _ (by decide)

/-- Membership in a non-blank search result, characterised by the
contiguous-substring relation on the lower-cased fields. -/
theorem searchNotes_mem (searchTerm : Str) (notes : List Note)
    (hb : jsTrim searchTerm ≠ []) (n : Note) :
    n ∈ searchNotes searchTerm notes ↔
      n ∈ notes ∧
        (jsTrim (jsToLower searchTerm) <:+: jsToLower (n.title.getD [])
          ∨ jsTrim (jsToLower searchTerm)
              <:+: jsToLower (n.content.getD [])) := by
  have hcond : ¬ (searchTerm = [] ∨ jsTrim searchTerm = []) := by
    rintro (h | h)
    · exact hb (by rw [h]; rfl)
    · exact hb h
  rw [searchNotes, if_neg hcond, List.mem_filter, Bool.or_eq_true,
    includesSub_correct, includesSub_correct]

/-- C8: search with a blank (all-whitespace or empty) term returns the whole
collection unchanged; the result is always a sublist of the collection (so
original relative order is preserved); and for a non-blank term a note is in
the result exactly when the lower-cased trimmed term occurs as a substring
of its lower-cased title or content. -/
theorem C8_search_spec (searchTerm : Str) (notes : List Note) :
    (jsTrim searchTerm = [] → searchNotes searchTerm notes = notes)
    ∧ (searchNotes searchTerm notes).Sublist notes
    ∧ (jsTrim searchTerm ≠ [] → ∀ n : Note,
        n ∈ searchNotes searchTerm notes ↔
          n ∈ notes ∧
            (jsTrim (jsToLower searchTerm) <:+: jsToLower (n.title.getD [])
              ∨ jsTrim (jsToLower searchTerm)
                  <:+: jsToLower (n.content.getD []))) := by
  by_cases hb : jsTrim searchTerm = []
  · have hcond : searchTerm = [] ∨ jsTrim searchTerm = [] := Or.inr hb
    rw [searchNotes, if_pos hcond]
    exact ⟨fun _ => rfl, List.Sublist.refl _, fun hne => absurd hb hne⟩
  · have hcond : ¬ (searchTerm = [] ∨ jsTrim searchTerm = []) := by
      rintro (h | h)
      · exact hb (by rw [h]; rfl)
      · exact hb h
    refine ⟨fun h => absurd h hb, ?_, fun _ n => searchNotes_mem _ _ hb n⟩
    rw [searchNotes, if_neg hcond]
    exact List.filter_sublist _

/-- C8 witness: searching `"abc"` over notes titled `"ABC"`, `"xabcx"`,
`"zzz"` keeps the first (case-insensitively), drops the third, and a blank
search returns the collection unchanged. -/
theorem C8_search_spec_witness :
    ({ id := 1, title := some ("ABC".toList), content := some [],
       createdAt := none, updatedAt := none : Note }
        ∈ searchNotes ("abc".toList)
          [{ id := 1, title := some ("ABC".toList), content := some [],
             createdAt := none, updatedAt := none },
           { id := 2, title := some ("xabcx".toList), content := some [],
             createdAt := none, updatedAt := none },
           { id := 3, title := some ("zzz".toList), content := some [],
             createdAt := none, updatedAt := none }])
    ∧ searchNotes []
        [{ id := 3, title := some ("zzz".toList), content := some [],
           createdAt := none, updatedAt := none }]
      = [{ id := 3, title := some ("zzz".toList), content := some [],
           createdAt := none, updatedAt := none }] :=
  ⟨((C8_search_spec ("abc".toList) _).2.2 (by decide) _).mpr
      ⟨by decide, by decide⟩,
    (C8_search_spec [] _).1 (by decide)⟩

/-- C9: for a non-blank term, a note whose `title` and `content` are both
null/absent is treated as matching against empty strings and is therefore
never in the search result; `searchNotes` is a total function, so no
exception can arise from the missing fields. -/
theorem C9_search_null_fields (searchTerm : Str) (notes : List Note)
    (n : Note) (hb : jsTrim searchTerm ≠ []) (ht : n.title = none)
    (hc : n.content = none) :
    n ∉ searchNotes searchTerm notes := by
  intro hmem
  have h2 := ((searchNotes_mem searchTerm notes hb n).mp hmem).2
  rw [ht, hc] at h2
  have hterm : jsTrim (jsToLower searchTerm) = [] := by
    rcases h2 with h | h <;> exact List.infix_nil.mp h
  exact hb ((jsTrim_jsToLower_eq_nil searchTerm).mp hterm)

/-- C9 witness: a note with null title and content is excluded from the
result of a concrete non-blank search over a collection containing it. -/
theorem C9_search_null_fields_witness :
    { id := 7, title := none, content := none, createdAt := none,
      updatedAt := none : Note }
      ∉ searchNotes ("abc".toList)
          [{ id := 7, title := none, content := none, createdAt := none,
             updatedAt := none }] :=
  C9_search_null_fields ("abc".toList) _ _ (by decide) rfl rfl

/-- Reading the primary store right after a successful write returns the
document just written. -/
theorem readNotesData_writeNotesData (d : NoteDoc) (fs : FS) :
    readNotesData (writeNotesData d fs).1 = d := by
  cases h : fs.dataFile <;>
    simp [writeNotesData, readNotesData, serialize, parseContent]

/-- Migration does not change a note that already has both timestamps. -/
theorem migrateNote_timestamped (now : Nat) (n : Note)
    (hc : n.createdAt.isSome = true) (hu : n.updatedAt.isSome = true) :
    migrateNote now n = n := by
  cases hcc : n.createdAt <;> cases huu : n.updatedAt <;>
    simp_all [migrateNote]

/-- Migration does not change a collection of fully timestamped notes. -/
theorem migrateNotes_timestamped (now : Nat) (ns : List Note)
    (h : ∀ n ∈ ns, n.createdAt.isSome = true ∧ n.updatedAt.isSome = true) :
    migrateNotes now ns = ns := by
  induction ns with
  | nil => rfl
  | cons a t ih =>
    have ha := h a (List.mem_cons_self a t)
    rw [migrateNotes, List.map_cons,
      migrateNote_timestamped now a ha.1 ha.2]
    have ht := ih fun n hn => h n (List.mem_cons_of_mem a hn)
    rw [migrateNotes] at ht
    rw [ht]

/-- C3: if the primary backend yields a document with zero notes while
localStorage holds a non-empty (fully timestamped) document `d2`, then
`initialize` adopts `d2`'s content, raises the imported-from-local-backup
notification, and writes the adopted content back through the primary
backend, so a subsequent primary read returns it. -/
theorem C3_self_healing (w : World) (now : Nat) (d2 : NoteDoc)
    (hprimary : (readNotesData w.fs).notes = [])
    (hsec : w.localStore = some (serialize d2))
    (hne : d2.notes ≠ [])
    (hts : ∀ n ∈ d2.notes,
      n.createdAt.isSome = true ∧ n.updatedAt.isSome = true) :
    (initializeNotes true now w).importedFromLocal = true
    ∧ (initializeNotes true now w).notes = d2.notes
    ∧ (initializeNotes true now w).nextNoteId = d2.nextId
    ∧ readNotesData (initializeNotes true now w).world.fs
        = { notes := d2.notes, nextId := d2.nextId,
            lastModified := some now } := by
  have hmig : migrateNotes now d2.notes = d2.notes :=
    migrateNotes_timestamped now _ hts
  have hlocal : loadFromLocalStorage now w.localStore = d2 := by
    rw [hsec]; rfl
  have hlen : 0 < d2.notes.length := List.length_pos.mpr hne
  have hinit : initializeNotes true now w =
      { notes := d2.notes, nextNoteId := d2.nextId,
        world := saveDataW true
          { notes := d2.notes, nextId := d2.nextId,
            lastModified := some now } w,
        importedFromLocal := true } := by
    simp only [initializeNotes, loadData, if_true, hprimary, hlocal, migrateNotes,
      List.map_nil, List.length_nil, if_pos rfl, if_pos hlen]
    rw [show migrateNotes now d2.notes = List.map (migrateNote now) d2.notes
        from rfl] at hmig
    simp [hmig]
  rw [hinit]
  refine ⟨rfl, rfl, rfl, ?_⟩
  simp only [saveDataW, if_true]
  exact readNotesData_writeNotesData _ _

/-- C3 witness: concrete empty primary, non-empty localStorage; the adopted
content is returned and readable back from the primary store. -/
theorem C3_self_healing_witness :
    (initializeNotes true 9
        { fs := { dataFile := none, backupFile := none },
          localStore := some (serialize
            { notes := [{ id := 2, title := some ['a'], content := some [],
                          createdAt := some 1, updatedAt := some 2 }],
              nextId := 4, lastModified := some 1 }) }).importedFromLocal
        = true
    ∧ (initializeNotes true 9
        { fs := { dataFile := none, backupFile := none },
          localStore := some (serialize
            { notes := [{ id := 2, title := some ['a'], content := some [],
                          createdAt := some 1, updatedAt := some 2 }],
              nextId := 4, lastModified := some 1 }) }).notes
        = [{ id := 2, title := some ['a'], content := some [],
             createdAt := some 1, updatedAt := some 2 }]
    ∧ (initializeNotes true 9
        { fs := { dataFile := none, backupFile := none },
          localStore := some (serialize
            { notes := [{ id := 2, title := some ['a'], content := some [],
                          createdAt := some 1, updatedAt := some 2 }],
              nextId := 4, lastModified := some 1 }) }).nextNoteId = 4
    ∧ readNotesData (initializeNotes true 9
        { fs := { dataFile := none, backupFile := none },
          localStore := some (serialize
            { notes := [{ id := 2, title := some ['a'], content := some [],
                          createdAt := some 1, updatedAt := some 2 }],
              nextId := 4, lastModified := some 1 }) }).world.fs
        = { notes := [{ id := 2, title := some ['a'], content := some [],
                        createdAt := some 1, updatedAt := some 2 }],
            nextId := 4, lastModified := some 9 } :=
  C3_self_healing _ 9 _ (by decide) rfl (by decide) (by decide)

/-- Bounds for a run of create/delete calls: the id counter never decreases,
every assigned id lies in `[st.nextNoteId, final.nextNoteId)`, the assigned
ids are strictly increasing, and the document invariant is preserved. -/
theorem runNOps_bounds (ops : List NOp) (st : AppState) :
    st.nextNoteId ≤ (runNOps st ops).1.nextNoteId
    ∧ (∀ i ∈ (runNOps st ops).2,
        st.nextNoteId ≤ i ∧ i < (runNOps st ops).1.nextNoteId)
    ∧ (runNOps st ops).2.Pairwise (· < ·)
    ∧ (validIds st → validIds (runNOps st ops).1) := by
  induction ops generalizing st with
  | nil => simp [runNOps]
  | cons op rest ih =>
    cases op with
    | create now =>
      obtain ⟨h1, h2, h3, h4⟩ := ih (createNewNote now st).2
      have hnext : (createNewNote now st).2.nextNoteId = st.nextNoteId + 1 :=
        rfl
      rw [hnext] at h1 h2
      refine ⟨?_, ?_, ?_, ?_⟩
      · show st.nextNoteId ≤ (runNOps (createNewNote now st).2 rest).1.nextNoteId
        omega
      · intro i hi
        rcases List.mem_cons.mp hi with hh | hh
        · subst hh
          constructor
          · exact Nat.le_refl _
          · have := h1
            show st.nextNoteId < (runNOps (createNewNote now st).2 rest).1.nextNoteId
            omega
        · have := h2 i hh
          constructor
          · omega
          · exact this.2
      · refine List.pairwise_cons.mpr ⟨?_, h3⟩
        intro b hb
        have := h2 b hb
        show st.nextNoteId < b
        omega
      · intro hv
        apply h4
        intro n hn
        rcases List.mem_append.mp hn with hh | hh
        · have := hv n hh
          show n.id < st.nextNoteId + 1
          omega
        · rcases List.mem_singleton.mp hh with rfl
          show st.nextNoteId < st.nextNoteId + 1
          omega
    | del i now =>
      obtain ⟨h1, h2, h3, h4⟩ := ih (deleteNote i now st).2
      have hnext : (deleteNote i now st).2.nextNoteId = st.nextNoteId := by
        by_cases h : (st.notes.any fun n => n.id = i) = true <;>
          simp [deleteNote, saveAllNotes, h]
      rw [hnext] at h1 h2
      refine ⟨h1, h2, h3, ?_⟩
      intro hv
      apply h4
      intro n hn
      rw [hnext]
      by_cases h : (st.notes.any fun n => n.id = i) = true
      · simp only [deleteNote, saveAllNotes, h, if_true] at hn
        exact hv n ((List.eraseP_sublist st.notes).subset hn)
      · simp only [deleteNote, h, if_false] at hn
        exact hv n hn

/-- C7: for every run of `create`/`delete` calls from a valid document, the
final `nextId` strictly exceeds every id the run assigned (also the ids of
meanwhile-deleted notes), no id is assigned twice, and the invariant that
`nextId` exceeds every id in the collection is preserved. -/
theorem C7_id_monotonic (ops : List NOp) (st : AppState)
    (hv : validIds st) :
    (∀ i ∈ (runNOps st ops).2, i < (runNOps st ops).1.nextNoteId)
    ∧ (runNOps st ops).2.Nodup
    ∧ validIds (runNOps st ops).1 := by
  obtain ⟨h1, h2, h3, h4⟩ := runNOps_bounds ops st
  exact ⟨fun i hi => (h2 i hi).2,
    List.Pairwise.imp (fun h => Nat.ne_of_lt h) h3, h4 hv⟩

/-- C7 witness: a concrete create/delete/create run from the empty valid
state assigns ids below the final counter, without reuse. -/
theorem C7_id_monotonic_witness :
    (∀ i ∈ (runNOps
        { notes := [], nextNoteId := 1,
          store := { saveTimeout := none, pendingData := none, writes := [] } }
        [NOp.create 0, NOp.del 1 4, NOp.create 9]).2,
      i < (runNOps
        { notes := [], nextNoteId := 1,
          store := { saveTimeout := none, pendingData := none, writes := [] } }
        [NOp.create 0, NOp.del 1 4, NOp.create 9]).1.nextNoteId)
    ∧ (runNOps
        { notes := [], nextNoteId := 1,
          store := { saveTimeout := none, pendingData := none, writes := [] } }
        [NOp.create 0, NOp.del 1 4, NOp.create 9]).2.Nodup
    ∧ validIds (runNOps
        { notes := [], nextNoteId := 1,
          store := { saveTimeout := none, pendingData := none, writes := [] } }
        [NOp.create 0, NOp.del 1 4, NOp.create 9]).1 :=
  C7_id_monotonic [NOp.create 0, NOp.del 1 4, NOp.create 9] _
    (by intro n hn; simp at hn)

/-- Merging fields into a note never changes which ids are present. -/
theorem updateFirst_any_id (noteId i : Nat) (u : NoteUpd) (now : Nat)
    (l : List Note) :
    ((updateFirst noteId u now l).any fun n => n.id = i)
      = (l.any fun n => n.id = i) := by
  induction l with
  | nil => rfl
  | cons n rest ih =>
    by_cases h : n.id = noteId <;> simp [updateFirst, h, applyUpd, ih]

/-- One burst step, when the call comes before any armed deadline: the timer
does not fire, the note is merged, and the debounce timer is re-armed at
`c.1 + 1000` with the freshly built document. -/
theorem stepCall_eq (noteId : Nat) (st : AppState) (c : Nat × NoteUpd)
    (hsafe : ∀ p, st.store.saveTimeout = some p → c.1 < p.1)
    (hex : (st.notes.any fun n => n.id = noteId) = true) :
    stepCall noteId st c =
      { notes := updateFirst noteId c.2 c.1 st.notes,
        nextNoteId := st.nextNoteId,
        store :=
          { saveTimeout := some (c.1 + 1000,
              docOf (updateFirst noteId c.2 c.1 st.notes) st.nextNoteId c.1),
            pendingData :=
              some (docOf (updateFirst noteId c.2 c.1 st.notes)
                st.nextNoteId c.1),
            writes := st.store.writes } } := by
  have hfire : fireDue c.1 st.store = st.store := by
    rcases hto : st.store.saveTimeout with _ | ⟨ft, d⟩
    · simp [fireDue, hto]
    · have := hsafe (ft, d) hto
      simp only [fireDue, hto]
      rw [if_neg (by simpa using Nat.not_le.mpr this)]
  simp only [stepCall, hfire]
  have heta : { st with store := st.store } = st := rfl
  rw [heta]
  simp [updateNote, hex, debouncedSave, setPendingData, docOf]

/-- Running a burst whose first call precedes any armed deadline and whose
consecutive calls each come within the debounce window: no timer ever
fires, so nothing is written, and at the end a single timer is armed at
`last + 1000` holding the fully merged document. -/
theorem runBurst_go (noteId : Nat) (calls : List (Nat × NoteUpd))
    (st : AppState) (hne : calls ≠ [])
    (hsafe : ∀ p, st.store.saveTimeout = some p →
      ∀ c, calls.head? = some c → c.1 < p.1)
    (hchain : calls.Chain' fun a b => b.1 < a.1 + 1000)
    (hex : (st.notes.any fun n => n.id = noteId) = true) :
    runBurst noteId st calls =
      { notes := burstNotes noteId st.notes calls,
        nextNoteId := st.nextNoteId,
        store :=
          { saveTimeout := some ((calls.getLast hne).1 + 1000,
              docOf (burstNotes noteId st.notes calls) st.nextNoteId
                (calls.getLast hne).1),
            pendingData :=
              some (docOf (burstNotes noteId st.notes calls) st.nextNoteId
                (calls.getLast hne).1),
            writes := st.store.writes } } := by
  induction calls generalizing st with
  | nil => exact absurd rfl hne
  | cons c rest ih =>
    have hstep := stepCall_eq noteId st c (fun p hp => hsafe p hp c rfl) hex
    cases rest with
    | nil =>
      show runBurst noteId (stepCall noteId st c) [] = _
      simp only [runBurst]
      rw [hstep]
      rfl
    | cons r rest' =>
      have hcr : r.1 < c.1 + 1000 := (List.chain'_cons.mp hchain).1
      have hchain' := (List.chain'_cons.mp hchain).2
      have hne' : r :: rest' ≠ [] := by simp
      have hex' :
          ((stepCall noteId st c).notes.any fun n => n.id = noteId)
            = true := by
        rw [hstep]
        simpa [updateFirst_any_id] using hex
      have hsafe' : ∀ p,
          (stepCall noteId st c).store.saveTimeout = some p →
          ∀ c', (r :: rest').head? = some c' → c'.1 < p.1 := by
        intro p hp c' hc'
        rw [hstep] at hp
        simp only at hp
        have hpeq := Option.some.inj hp
        have hceq : r = c' := by simpa using hc'
        rw [← hpeq, ← hceq]
        exact hcr
      have hrec := ih (stepCall noteId st c) hne' hsafe' hchain' hex'
      show runBurst noteId (stepCall noteId st c) (r :: rest') = _
      rw [hrec, hstep]
      rfl

/-- C6: a burst of `updateNote` calls on an existing note, all lying inside
a window shorter than the one-second debounce interval, produces exactly
one backend write once the debounce finally fires, and that write holds the
final merged collection (every call's fields applied in order), stamped
with the last call's time; no stale timer remains. -/
theorem C6_debounce_coalesces (noteId : Nat) (st : AppState)
    (calls : List (Nat × NoteUpd)) (hne : calls ≠ [])
    (hmono : calls.Pairwise fun a b => a.1 ≤ b.1)
    (hwin : ∀ a ∈ calls, a.1 < (calls.head hne).1 + 1000)
    (hex : (st.notes.any fun n => n.id = noteId) = true)
    (ht : st.store.saveTimeout = none)
    (hw : st.store.writes = []) :
    (flushTimer (runBurst noteId st calls).store).writes =
      [docOf (burstNotes noteId st.notes calls) st.nextNoteId
        (calls.getLast hne).1]
    ∧ (flushTimer (runBurst noteId st calls).store).saveTimeout = none := by
  have hchain : calls.Chain' fun a b => b.1 < a.1 + 1000 := by
    rcases hc : calls with _ | ⟨c0, rest⟩
    · exact List.chain'_nil
    · subst hc
      apply List.Pairwise.chain'
      obtain ⟨hc0, hrest⟩ := List.pairwise_cons.mp hmono
      refine List.pairwise_cons.mpr ⟨?_, ?_⟩
      · intro b hb
        exact hwin b (List.mem_cons_of_mem _ hb)
      · refine List.pairwise_of_forall_mem_list fun a ha b hb => ?_
        have h1 : b.1 < c0.1 + 1000 := hwin b (List.mem_cons_of_mem _ hb)
        have h2 : c0.1 ≤ a.1 := hc0 a ha
        omega
  have hsafe : ∀ p, st.store.saveTimeout = some p →
      ∀ c, calls.head? = some c → c.1 < p.1 := by
    intro p hp
    rw [ht] at hp
    exact absurd hp (by simp)
  have hrun := runBurst_go noteId calls st hne hsafe hchain hex
  rw [hrun]
  simp [flushTimer, saveData, hw]

/-- C6 witness: two updates at times 100 and 600 on note 1 yield exactly one
write, holding both merged fields, stamped with the last call's time. -/
theorem C6_debounce_coalesces_witness :
    (flushTimer (runBurst 1
        { notes := [{ id := 1, title := some [], content := some [],
                      createdAt := some 0, updatedAt := some 0 }],
          nextNoteId := 2,
          store := { saveTimeout := none, pendingData := none,
                     writes := [] } }
        [(100, { title := some ['a'], content := none }),
         (600, { title := none, content := some ['b'] })]).store).writes
      = [docOf (burstNotes 1
          [{ id := 1, title := some [], content := some [],
             createdAt := some 0, updatedAt := some 0 }]
          [(100, { title := some ['a'], content := none }),
           (600, { title := none, content := some ['b'] })]) 2 600] :=
  (C6_debounce_coalesces 1 _ _ (by decide) (by decide) (by decide) (by decide)
    rfl rfl).1

/-- C1 counterexample: starting from a directory holding `notes.json` and a
recently-modified rotating backup `notes.backup.json`, seven timestamped
snapshot creations with `maxBackups = 5` leave only 4 timestamped
snapshots, not 5 — the rotating backup matches the pruning pattern and
occupies one retention slot. -/
theorem C1_counterexample :
    timestampedCount (runSnapshots c1Args c1Start) = 4
    ∧ timestampedCount (runSnapshots c1Args c1Start) ≠ 5 := by
  decide

/-- Removing a name that no file bears is a no-op. -/
theorem removeName_id (n : Str) (d : Dir) (h : ∀ f ∈ d, f.name ≠ n) :
    removeName n d = d :=
  List.filter_eq_self.mpr fun f hf => by simpa using h f hf

/-- The deletion loop never touches a file whose name is not on its list. -/
theorem mem_deleteFiles (flt : FsFaults) (d : Dir) (names : List Str)
    (f : DirFile) (hf : f ∈ d) (hn : f.name ∉ names) :
    f ∈ deleteFiles flt d names := by
  induction names generalizing d with
  | nil => exact hf
  | cons n rest ih =>
    simp only [deleteFiles]
    split
    · refine ih (removeName n d) ?_ fun h => hn (List.mem_cons_of_mem _ h)
      refine List.mem_filter.mpr ⟨hf, ?_⟩
      simpa using fun he => hn (by simp [he])
    · exact hf

/-- Pruning preserves every file that does not match the backup pattern. -/
theorem cleanup_preserves_nonmatching (maxB : Nat) (flt : FsFaults)
    (d : Dir) (f : DirFile) (hf : f ∈ d)
    (hnm : isBackupFileName f.name = false) :
    f ∈ cleanupOldBackups maxB flt d := by
  simp only [cleanupOldBackups]
  split
  · split
    · refine mem_deleteFiles _ _ _ _ hf ?_
      intro hmem
      obtain ⟨x, hx, hxe⟩ := List.mem_map.mp hmem
      have hx1 : x ∈ List.insertionSort mtimeDesc
          (d.filter fun g => isBackupFileName g.name) :=
        List.mem_of_mem_drop hx
      have hx2 : x ∈ d.filter fun g => isBackupFileName g.name :=
        ((List.perm_insertionSort mtimeDesc _).mem_iff).mp hx1
      have hx3 : isBackupFileName x.name = true := (List.mem_filter.mp hx2).2
      rw [hxe, hnm] at hx3
      exact Bool.false_ne_true hx3
    · exact hf
  · exact hf

/-- C10: pruning deletes only files matching the
`notes.backup.*.json` pattern — any non-matching file, in particular the
data file `notes.json`, survives it — and filesystem faults during pruning
are absorbed without changing `createBackup`'s returned result. -/
theorem C10_prune_frame (maxB : Nat) (flt : FsFaults) (d : Dir) :
    (∀ f ∈ d, isBackupFileName f.name = false →
      f ∈ cleanupOldBackups maxB flt d)
    ∧ (∀ f ∈ d, f.name = notesJsonName →
      f ∈ cleanupOldBackups maxB flt d)
    ∧ ∀ iso mt,
        (createBackup iso mt maxB flt d).2
          = (createBackup iso mt maxB noFaults d).2 := by
  refine ⟨fun f hf h => cleanup_preserves_nonmatching maxB flt d f hf h,
    fun f hf h => cleanup_preserves_nonmatching maxB flt d f hf ?_,
    fun iso mt => ?_⟩
  · rw [h]
    decide
  · unfold createBackup
    split <;> rfl

/-- C10 witness: with every `unlink` failing, a concrete overfull directory
still keeps `notes.json`, and the snapshot result is the one of the
fault-free run. -/
theorem C10_prune_frame_witness :
    ({ name := notesJsonName, mtime := 0 : DirFile }
        ∈ cleanupOldBackups 1
          { statOk := fun _ => true, unlinkOk := fun _ => false }
          [{ name := notesJsonName, mtime := 0 },
           { name := "notes.backup.a.json".toList, mtime := 1 },
           { name := "notes.backup.b.json".toList, mtime := 2 }])
    ∧ (createBackup ("t".toList) 9 1
          { statOk := fun _ => true, unlinkOk := fun _ => false }
          [{ name := notesJsonName, mtime := 0 },
           { name := "notes.backup.a.json".toList, mtime := 1 },
           { name := "notes.backup.b.json".toList, mtime := 2 }]).2
        = (createBackup ("t".toList) 9 1 noFaults
          [{ name := notesJsonName, mtime := 0 },
           { name := "notes.backup.a.json".toList, mtime := 1 },
           { name := "notes.backup.b.json".toList, mtime := 2 }]).2 :=
  ⟨(C10_prune_frame 1 _ _).2.1 _ (by decide) rfl,
    (C10_prune_frame 1 _ _).2.2 ("t".toList) 9⟩

/-- With at most `maxBackups` matching files, pruning is a no-op. -/
theorem cleanup_le_max (maxB : Nat) (flt : FsFaults) (d : Dir)
    (h : (d.filter fun f => isBackupFileName f.name).length ≤ maxB) :
    cleanupOldBackups maxB flt d = d := by
  simp only [cleanupOldBackups]
  rw [if_neg (Nat.not_lt.mpr h)]

/-- With exactly `maxBackups + 1` matching files of pairwise distinct
modification times, fault-free pruning deletes exactly the oldest matching
file. -/
theorem cleanup_removes_argmin (maxB : Nat) (d : Dir)
    (hlen : (d.filter fun f => isBackupFileName f.name).length = maxB + 1)
    (m : DirFile) (hm : m ∈ d.filter fun f => isBackupFileName f.name)
    (hmin : ∀ x ∈ d.filter (fun f => isBackupFileName f.name),
      x ≠ m → m.mtime < x.mtime) :
    cleanupOldBackups maxB noFaults d = removeName m.name d := by
  have hperm := List.perm_insertionSort mtimeDesc
    (d.filter fun f => isBackupFileName f.name)
  have hsorted := List.sorted_insertionSort mtimeDesc
    (d.filter fun f => isBackupFileName f.name)
  set s := List.insertionSort mtimeDesc
    (d.filter fun f => isBackupFileName f.name) with hs
  have hslen : s.length = maxB + 1 := by rw [hperm.length_eq, hlen]
  have hdlen : (s.drop maxB).length = 1 := by
    rw [List.length_drop, hslen]
    omega
  obtain ⟨y, hy⟩ := List.length_eq_one.mp hdlen
  have hysorted : y ∈ s := List.mem_of_mem_drop (by rw [hy]; exact List.mem_singleton_self y)
  have hymem : y ∈ d.filter fun f => isBackupFileName f.name :=
    hperm.mem_iff.mp hysorted
  have hyle : ∀ x ∈ d.filter (fun f => isBackupFileName f.name),
      x = y ∨ y.mtime ≤ x.mtime := by
    intro x hx
    have hxs : x ∈ s := hperm.mem_iff.mpr hx
    rw [← List.take_append_drop maxB s] at hxs
    rcases List.mem_append.mp hxs with hh | hh
    · right
      have hpw : List.Pairwise mtimeDesc (s.take maxB ++ s.drop maxB) := by
        rw [List.take_append_drop]
        exact hsorted
      have := (List.pairwise_append.mp hpw).2.2 x hh y
        (by rw [hy]; exact List.mem_singleton_self y)
      exact this
    · left
      rw [hy] at hh
      exact List.mem_singleton.mp hh
  have hym : y = m := by
    by_contra hne
    have h1 : m.mtime < y.mtime := hmin y hymem hne
    rcases hyle m hm with hh | hh
    · exact hne hh.symm
    · omega
  have hall : ((d.filter fun f => isBackupFileName f.name).all
      fun f => noFaults.statOk f.name) = true := by
    simp [noFaults]
  simp only [cleanupOldBackups]
  rw [if_pos (by omega), if_pos hall, ← hs, hy, hym]
  simp only [List.map_cons, List.map_nil, deleteFiles, noFaults, if_true]

/-- Every timestamped snapshot name matches the pruning pattern. -/
theorem isBackupFileName_snapshotName (iso : Str) :
    isBackupFileName (snapshotName iso) = true := by
  unfold isBackupFileName snapshotName
  rw [Bool.and_eq_true]
  constructor
  · rw [List.isPrefixOf_iff_prefix]
    exact ⟨sanitizeTs iso ++ ".json".toList, by rw [List.append_assoc]⟩
  · rw [List.isSuffixOf_iff_suffix]
    exact ⟨"notes.backup.".toList ++ sanitizeTs iso, by rw [List.append_assoc]⟩

/-- A timestamped snapshot name is never the rotating backup's name: it is
at least one character longer. -/
theorem snapshotName_ne_rotating (iso : Str) :
    snapshotName iso ≠ rotatingBackupName := by
  intro h
  have hlen := congrArg List.length h
  simp only [snapshotName, sanitizeTs, rotatingBackupName,
    List.length_append, List.length_map] at hlen
  have h1 : ("notes.backup.".toList).length = 13 := by decide
  have h2 : (".json".toList).length = 5 := by decide
  have h3 : ("notes.backup.json".toList).length = 17 := by decide
  omega

/-- `createBackup` in a directory holding `notes.json` and no file with the
new snapshot's name: the snapshot is appended and pruning runs over the
extended directory. -/
theorem createBackup_fresh (iso : Str) (mt maxB : Nat) (flt : FsFaults)
    (d : Dir) (hdata : (d.any fun f => f.name = notesJsonName) = true)
    (hfresh : ∀ f ∈ d, f.name ≠ snapshotName iso) :
    (createBackup iso mt maxB flt d).1
      = cleanupOldBackups maxB flt
          (d ++ [{ name := snapshotName iso, mtime := mt }]) := by
  simp only [createBackup, hdata, if_true]
  rw [removeName_id _ _ hfresh]

/-- Pruning a directory that splits into non-matching files and at most
`maxBackups` matching ones is a no-op. -/
theorem cleanup_small (maxB : Nat) (flt : FsFaults) (d0 sl : Dir)
    (hclean : ∀ f ∈ d0, isBackupFileName f.name = false)
    (hsl : ∀ f ∈ sl, isBackupFileName f.name = true)
    (hlen : sl.length ≤ maxB) :
    cleanupOldBackups maxB flt (d0 ++ sl) = d0 ++ sl := by
  apply cleanup_le_max
  rw [List.filter_append,
    List.filter_eq_nil_iff.mpr (fun f hf => by simp [hclean f hf]),
    List.filter_eq_self.mpr hsl, List.nil_append]
  exact hlen

/-- Pruning a directory of non-matching files plus `maxBackups + 1`
matching ones whose oldest is `s0` (all names distinct from `s0`'s)
removes exactly `s0`. -/
theorem cleanup_argmin_append (maxB : Nat) (d0 : Dir) (s0 : DirFile)
    (sl : Dir) (hclean : ∀ f ∈ d0, isBackupFileName f.name = false)
    (hs0 : isBackupFileName s0.name = true)
    (hsl : ∀ f ∈ sl, isBackupFileName f.name = true)
    (hlen : sl.length = maxB)
    (hmin : ∀ x ∈ sl, s0.mtime < x.mtime)
    (hname : ∀ x ∈ sl, x.name ≠ s0.name)
    (hnamed : ∀ f ∈ d0, f.name ≠ s0.name) :
    cleanupOldBackups maxB noFaults (d0 ++ (s0 :: sl)) = d0 ++ sl := by
  have hfilter : (d0 ++ (s0 :: sl)).filter
      (fun f => isBackupFileName f.name) = s0 :: sl := by
    rw [List.filter_append,
      List.filter_eq_nil_iff.mpr (fun f hf => by simp [hclean f hf]),
      List.filter_eq_self.mpr ?_, List.nil_append]
    intro f hf
    rcases List.mem_cons.mp hf with rfl | hf2
    · exact hs0
    · exact hsl f hf2
  have hrem := cleanup_removes_argmin maxB (d0 ++ (s0 :: sl))
    (by rw [hfilter]; simp [hlen]) s0
    (by rw [hfilter]; exact List.mem_cons_self s0 sl) ?hmin
  case hmin =>
    intro x hx hxne
    rw [hfilter] at hx
    rcases List.mem_cons.mp hx with rfl | hx2
    · exact absurd rfl hxne
    · exact hmin x hx2
  rw [hrem, removeName, List.filter_append]
  congr 1
  · exact List.filter_eq_self.mpr fun f hf => by simpa using hnamed f hf
  · rw [List.filter_cons]
    rw [if_neg (by simp)]
    exact List.filter_eq_self.mpr fun f hf => by simpa using hname f hf

/-- C1 (amended): the pruning pattern `notes.backup.*.json` also matches
the rotating backup, so retention keeps the 5 most recently modified
*matching files*, not necessarily 5 timestamped snapshots.  In a directory
holding `notes.json` and no file matching the pattern, seven snapshot
creations with fresh, pairwise distinct names and strictly increasing
modification times leave exactly the 5 most recent snapshots (the 3rd to
7th), alongside the untouched rest of the directory. -/
theorem C1_snapshot_retention (d0 : Dir)
    (i1 i2 i3 i4 i5 i6 i7 : Str) (m1 m2 m3 m4 m5 m6 m7 : Nat)
    (hdata : (d0.any fun f => f.name = notesJsonName) = true)
    (hclean : ∀ f ∈ d0, isBackupFileName f.name = false)
    (hfresh : ∀ f ∈ d0, ∀ j ∈ [i1, i2, i3, i4, i5, i6, i7],
      f.name ≠ snapshotName j)
    (hdist : [snapshotName i1, snapshotName i2, snapshotName i3,
      snapshotName i4, snapshotName i5, snapshotName i6,
      snapshotName i7].Pairwise (· ≠ ·))
    (hm12 : m1 < m2) (hm23 : m2 < m3) (hm34 : m3 < m4) (hm45 : m4 < m5)
    (hm56 : m5 < m6) (hm67 : m6 < m7) :
    runSnapshots [(i1, m1), (i2, m2), (i3, m3), (i4, m4), (i5, m5),
        (i6, m6), (i7, m7)] d0
      = d0 ++ [{ name := snapshotName i3, mtime := m3 },
               { name := snapshotName i4, mtime := m4 },
               { name := snapshotName i5, mtime := m5 },
               { name := snapshotName i6, mtime := m6 },
               { name := snapshotName i7, mtime := m7 }]
    ∧ timestampedCount (runSnapshots [(i1, m1), (i2, m2), (i3, m3),
        (i4, m4), (i5, m5), (i6, m6), (i7, m7)] d0) = 5 := by
  have hb1 := isBackupFileName_snapshotName i1
  have hb2 := isBackupFileName_snapshotName i2
  have hb3 := isBackupFileName_snapshotName i3
  have hb4 := isBackupFileName_snapshotName i4
  have hb5 := isBackupFileName_snapshotName i5
  have hb6 := isBackupFileName_snapshotName i6
  have hb7 := isBackupFileName_snapshotName i7
  have hd1 := List.pairwise_cons.mp hdist
  have hd2 := List.pairwise_cons.mp hd1.2
  have hd3 := List.pairwise_cons.mp hd2.2
  have hd4 := List.pairwise_cons.mp hd3.2
  have hd5 := List.pairwise_cons.mp hd4.2
  have hd6 := List.pairwise_cons.mp hd5.2
  have e1 : (createBackup i1 m1 5 noFaults d0).1
      = d0 ++ [{ name := snapshotName i1, mtime := m1 }] := by
    rw [createBackup_fresh i1 m1 5 noFaults d0 hdata
      (fun f hf => hfresh f hf i1 (by simp))]
    exact cleanup_small 5 noFaults d0 _ hclean
      (List.forall_mem_cons.mpr ⟨hb1, by simp⟩) (by simp)
  have e2 : (createBackup i2 m2 5 noFaults
        (d0 ++ [{ name := snapshotName i1, mtime := m1 }])).1
      = d0 ++ [{ name := snapshotName i1, mtime := m1 },
               { name := snapshotName i2, mtime := m2 }] := by
    rw [createBackup_fresh i2 m2 5 noFaults _
      (by simp [List.any_append, hdata])
      (List.forall_mem_append.mpr ⟨fun f hf => hfresh f hf i2 (by simp),
        List.forall_mem_cons.mpr ⟨hd1.1 _ (by simp), by simp⟩⟩)]
    rw [List.append_assoc]
    exact cleanup_small 5 noFaults d0 _ hclean
      (List.forall_mem_cons.mpr ⟨hb1,
        List.forall_mem_cons.mpr ⟨hb2, by simp⟩⟩) (by simp)
  have e3 : (createBackup i3 m3 5 noFaults
        (d0 ++ [{ name := snapshotName i1, mtime := m1 },
                { name := snapshotName i2, mtime := m2 }])).1
      = d0 ++ [{ name := snapshotName i1, mtime := m1 },
               { name := snapshotName i2, mtime := m2 },
               { name := snapshotName i3, mtime := m3 }] := by
    rw [createBackup_fresh i3 m3 5 noFaults _
      (by simp [List.any_append, hdata])
      (List.forall_mem_append.mpr ⟨fun f hf => hfresh f hf i3 (by simp),
        List.forall_mem_cons.mpr ⟨hd1.1 _ (by simp),
          List.forall_mem_cons.mpr ⟨hd2.1 _ (by simp), by simp⟩⟩⟩)]
    rw [List.append_assoc]
    exact cleanup_small 5 noFaults d0 _ hclean
      (List.forall_mem_cons.mpr ⟨hb1,
        List.forall_mem_cons.mpr ⟨hb2,
          List.forall_mem_cons.mpr ⟨hb3, by simp⟩⟩⟩) (by simp)
  have e4 : (createBackup i4 m4 5 noFaults
        (d0 ++ [{ name := snapshotName i1, mtime := m1 },
                { name := snapshotName i2, mtime := m2 },
                { name := snapshotName i3, mtime := m3 }])).1
      = d0 ++ [{ name := snapshotName i1, mtime := m1 },
               { name := snapshotName i2, mtime := m2 },
               { name := snapshotName i3, mtime := m3 },
               { name := snapshotName i4, mtime := m4 }] := by
    rw [createBackup_fresh i4 m4 5 noFaults _
      (by simp [List.any_append, hdata])
      (List.forall_mem_append.mpr ⟨fun f hf => hfresh f hf i4 (by simp),
        List.forall_mem_cons.mpr ⟨hd1.1 _ (by simp),
          List.forall_mem_cons.mpr ⟨hd2.1 _ (by simp),
            List.forall_mem_cons.mpr ⟨hd3.1 _ (by simp), by simp⟩⟩⟩⟩)]
    rw [List.append_assoc]
    exact cleanup_small 5 noFaults d0 _ hclean
      (List.forall_mem_cons.mpr ⟨hb1,
        List.forall_mem_cons.mpr ⟨hb2,
          List.forall_mem_cons.mpr ⟨hb3,
            List.forall_mem_cons.mpr ⟨hb4, by simp⟩⟩⟩⟩) (by simp)
  have e5 : (createBackup i5 m5 5 noFaults
        (d0 ++ [{ name := snapshotName i1, mtime := m1 },
                { name := snapshotName i2, mtime := m2 },
                { name := snapshotName i3, mtime := m3 },
                { name := snapshotName i4, mtime := m4 }])).1
      = d0 ++ [{ name := snapshotName i1, mtime := m1 },
               { name := snapshotName i2, mtime := m2 },
               { name := snapshotName i3, mtime := m3 },
               { name := snapshotName i4, mtime := m4 },
               { name := snapshotName i5, mtime := m5 }] := by
    rw [createBackup_fresh i5 m5 5 noFaults _
      (by simp [List.any_append, hdata])
      (List.forall_mem_append.mpr ⟨fun f hf => hfresh f hf i5 (by simp),
        List.forall_mem_cons.mpr ⟨hd1.1 _ (by simp),
          List.forall_mem_cons.mpr ⟨hd2.1 _ (by simp),
            List.forall_mem_cons.mpr ⟨hd3.1 _ (by simp),
              List.forall_mem_cons.mpr ⟨hd4.1 _ (by simp), by simp⟩⟩⟩⟩⟩)]
    rw [List.append_assoc]
    exact cleanup_small 5 noFaults d0 _ hclean
      (List.forall_mem_cons.mpr ⟨hb1,
        List.forall_mem_cons.mpr ⟨hb2,
          List.forall_mem_cons.mpr ⟨hb3,
            List.forall_mem_cons.mpr ⟨hb4,
              List.forall_mem_cons.mpr ⟨hb5, by simp⟩⟩⟩⟩⟩) (by simp)
  have e6 : (createBackup i6 m6 5 noFaults
        (d0 ++ [{ name := snapshotName i1, mtime := m1 },
                { name := snapshotName i2, mtime := m2 },
                { name := snapshotName i3, mtime := m3 },
                { name := snapshotName i4, mtime := m4 },
                { name := snapshotName i5, mtime := m5 }])).1
      = d0 ++ [{ name := snapshotName i2, mtime := m2 },
               { name := snapshotName i3, mtime := m3 },
               { name := snapshotName i4, mtime := m4 },
               { name := snapshotName i5, mtime := m5 },
               { name := snapshotName i6, mtime := m6 }] := by
    rw [createBackup_fresh i6 m6 5 noFaults _
      (by simp [List.any_append, hdata])
      (List.forall_mem_append.mpr ⟨fun f hf => hfresh f hf i6 (by simp),
        List.forall_mem_cons.mpr ⟨hd1.1 _ (by simp),
          List.forall_mem_cons.mpr ⟨hd2.1 _ (by simp),
            List.forall_mem_cons.mpr ⟨hd3.1 _ (by simp),
              List.forall_mem_cons.mpr ⟨hd4.1 _ (by simp),
                List.forall_mem_cons.mpr ⟨hd5.1 _ (by simp),
                  by simp⟩⟩⟩⟩⟩⟩)]
    rw [List.append_assoc]
    refine cleanup_argmin_append 5 d0
      { name := snapshotName i1, mtime := m1 } _ hclean hb1
      (List.forall_mem_cons.mpr ⟨hb2,
        List.forall_mem_cons.mpr ⟨hb3,
          List.forall_mem_cons.mpr ⟨hb4,
            List.forall_mem_cons.mpr ⟨hb5,
              List.forall_mem_cons.mpr ⟨hb6, by simp⟩⟩⟩⟩⟩) rfl
      (List.forall_mem_cons.mpr ⟨show m1 < m2 by omega,
        List.forall_mem_cons.mpr ⟨show m1 < m3 by omega,
          List.forall_mem_cons.mpr ⟨show m1 < m4 by omega,
            List.forall_mem_cons.mpr ⟨show m1 < m5 by omega,
              List.forall_mem_cons.mpr ⟨show m1 < m6 by omega,
                by simp⟩⟩⟩⟩⟩)
      (List.forall_mem_cons.mpr ⟨Ne.symm (hd1.1 _ (by simp)),
        List.forall_mem_cons.mpr ⟨Ne.symm (hd1.1 _ (by simp)),
          List.forall_mem_cons.mpr ⟨Ne.symm (hd1.1 _ (by simp)),
            List.forall_mem_cons.mpr ⟨Ne.symm (hd1.1 _ (by simp)),
              List.forall_mem_cons.mpr ⟨Ne.symm (hd1.1 _ (by simp)),
                by simp⟩⟩⟩⟩⟩)
      (fun f hf => hfresh f hf i1 (by simp))
  have e7 : (createBackup i7 m7 5 noFaults
        (d0 ++ [{ name := snapshotName i2, mtime := m2 },
                { name := snapshotName i3, mtime := m3 },
                { name := snapshotName i4, mtime := m4 },
                { name := snapshotName i5, mtime := m5 },
                { name := snapshotName i6, mtime := m6 }])).1
      = d0 ++ [{ name := snapshotName i3, mtime := m3 },
               { name := snapshotName i4, mtime := m4 },
               { name := snapshotName i5, mtime := m5 },
               { name := snapshotName i6, mtime := m6 },
               { name := snapshotName i7, mtime := m7 }] := by
    rw [createBackup_fresh i7 m7 5 noFaults _
      (by simp [List.any_append, hdata])
      (List.forall_mem_append.mpr ⟨fun f hf => hfresh f hf i7 (by simp),
        List.forall_mem_cons.mpr ⟨hd2.1 _ (by simp),
          List.forall_mem_cons.mpr ⟨hd3.1 _ (by simp),
            List.forall_mem_cons.mpr ⟨hd4.1 _ (by simp),
              List.forall_mem_cons.mpr ⟨hd5.1 _ (by simp),
                List.forall_mem_cons.mpr ⟨hd6.1 _ (by simp),
                  by simp⟩⟩⟩⟩⟩⟩)]
    rw [List.append_assoc]
    refine cleanup_argmin_append 5 d0
      { name := snapshotName i2, mtime := m2 } _ hclean hb2
      (List.forall_mem_cons.mpr ⟨hb3,
        List.forall_mem_cons.mpr ⟨hb4,
          List.forall_mem_cons.mpr ⟨hb5,
            List.forall_mem_cons.mpr ⟨hb6,
              List.forall_mem_cons.mpr ⟨hb7, by simp⟩⟩⟩⟩⟩) rfl
      (List.forall_mem_cons.mpr ⟨show m2 < m3 by omega,
        List.forall_mem_cons.mpr ⟨show m2 < m4 by omega,
          List.forall_mem_cons.mpr ⟨show m2 < m5 by omega,
            List.forall_mem_cons.mpr ⟨show m2 < m6 by omega,
              List.forall_mem_cons.mpr ⟨show m2 < m7 by omega,
                by simp⟩⟩⟩⟩⟩)
      (List.forall_mem_cons.mpr ⟨Ne.symm (hd2.1 _ (by simp)),
        List.forall_mem_cons.mpr ⟨Ne.symm (hd2.1 _ (by simp)),
          List.forall_mem_cons.mpr ⟨Ne.symm (hd2.1 _ (by simp)),
            List.forall_mem_cons.mpr ⟨Ne.symm (hd2.1 _ (by simp)),
              List.forall_mem_cons.mpr ⟨Ne.symm (hd2.1 _ (by simp)),
                by simp⟩⟩⟩⟩⟩)
      (fun f hf => hfresh f hf i2 (by simp))
  have hrun : runSnapshots [(i1, m1), (i2, m2), (i3, m3), (i4, m4),
      (i5, m5), (i6, m6), (i7, m7)] d0
      = d0 ++ [{ name := snapshotName i3, mtime := m3 },
               { name := snapshotName i4, mtime := m4 },
               { name := snapshotName i5, mtime := m5 },
               { name := snapshotName i6, mtime := m6 },
               { name := snapshotName i7, mtime := m7 }] := by
    simp only [runSnapshots, List.foldl_cons, List.foldl_nil]
    rw [e1, e2, e3, e4, e5, e6, e7]
  refine ⟨hrun, ?_⟩
  rw [hrun]
  unfold timestampedCount
  rw [List.filter_append, List.filter_eq_nil_iff.mpr
    (fun f hf => by simp [hclean f hf]), List.nil_append,
    List.filter_eq_self.mpr ?_]
  · rfl
  · refine List.forall_mem_cons.mpr ⟨?_, List.forall_mem_cons.mpr ⟨?_,
      List.forall_mem_cons.mpr ⟨?_, List.forall_mem_cons.mpr ⟨?_,
        List.forall_mem_cons.mpr ⟨?_, by simp⟩⟩⟩⟩⟩ <;>
    · rw [Bool.and_eq_true]
      exact ⟨isBackupFileName_snapshotName _,
        decide_eq_true (snapshotName_ne_rotating _)⟩

/-- C1 (amended) witness: a concrete directory holding only `notes.json`,
seven snapshots at times 1..7; the 3rd to 7th remain, and there are
exactly 5 timestamped snapshots. -/
theorem C1_snapshot_retention_witness :
    runSnapshots [("t1".toList, 1), ("t2".toList, 2), ("t3".toList, 3),
        ("t4".toList, 4), ("t5".toList, 5), ("t6".toList, 6),
        ("t7".toList, 7)] [{ name := notesJsonName, mtime := 0 }]
      = [{ name := notesJsonName, mtime := 0 }]
        ++ [{ name := snapshotName ("t3".toList), mtime := 3 },
            { name := snapshotName ("t4".toList), mtime := 4 },
            { name := snapshotName ("t5".toList), mtime := 5 },
            { name := snapshotName ("t6".toList), mtime := 6 },
            { name := snapshotName ("t7".toList), mtime := 7 }]
    ∧ timestampedCount (runSnapshots [("t1".toList, 1), ("t2".toList, 2),
        ("t3".toList, 3), ("t4".toList, 4), ("t5".toList, 5),
        ("t6".toList, 6), ("t7".toList, 7)]
        [{ name := notesJsonName, mtime := 0 }]) = 5 :=
  C1_snapshot_retention [{ name := notesJsonName, mtime := 0 }]
    ("t1".toList) ("t2".toList) ("t3".toList) ("t4".toList) ("t5".toList)
    ("t6".toList) ("t7".toList) 1 2 3 4 5 6 7
    (by decide) (by decide) (by decide) (by decide)
    (by decide) (by decide) (by decide) (by decide) (by decide) (by decide)
